import Mathlib

/-!
# Verification of the `pycg.obj` Wavefront-OBJ reader/writer

This file is a shallow embedding of `src/pycg/obj.py`: a Python "file-like
object" interface for a subset of Wavefront's OBJ format, extended with a
material-color side table.  The embedding models:

* the text stream as a list of token lines (`Line := List Tok`), a faithful
  abstraction of `line.strip().split()`: a `Tok.s` is a non-numeric word, a
  `Tok.q` is a float literal (Python `float`/`repr` round-trips exactly, so a
  rational value is carried instead of its decimal spelling), and a `Tok.i`
  is an integer literal;
* Python exceptions as the `PyErr` type; fallible code returns `Except` or,
  for the serializer (which writes as it goes and can abort mid-way), the
  output produced so far paired with an optional error;
* Python list indexing, including negative-index wraparound, as `pyGet`;
* insertion-ordered `dict`s as association lists with `pyDictSet`.

The geometric primitives (`graphics.Point` etc.) and `utilities.iter_no_str`
live outside the translated sources; they are modelled from the spec where
noted.
-/

attribute [local semireducible] Rat.mul Rat.add Rat.sub

/-- Python errors raised by the code under study. -/
inductive PyErr where
  | valueError
  | assertionError
  | keyError
  | indexError
  | typeError
  | attributeError
  | ioError
deriving DecidableEq, Repr

/-- Modelled from the spec: the external `graphics.Point` type, "an ordered
pair of numeric coordinates; external type, only constructed/decomposed
here".  The format's point model retains two coordinates; Python floats are
embedded as rationals. -/
structure Point where
  x : ℚ
  y : ℚ
deriving DecidableEq, Repr

/-- Modelled from the spec: the external `graphics.Color` type, an RGB triple
of 0-255 integer channels. -/
structure Color where
  r : Int
  g : Int
  b : Int
deriving DecidableEq, Repr

/-- Modelled from the spec: the external `graphics.Drawable` capability — one
variant per geometry kind, each enumerating its constituent points and
constructible from a list of points. -/
inductive Drawable where
  | point (p : Point)
  | line (a b : Point)
  | wireframe (ps : List Point)
  | polygon (ps : List Point)
deriving DecidableEq, Repr

/-- One whitespace-separated token of a text line. -/
inductive Tok where
  | s (w : String)
  | q (v : ℚ)
  | i (n : Int)
deriving DecidableEq, Repr

/-- One line of an OBJ or MTL file, already split into tokens
(`line.strip().split()`); a blank line is `[]`. -/
abbrev Line := List Tok

/-- A Python attribute value as used by this module: a string, a list of
strings, or a resolved color. -/
inductive AttrVal where
  | s (w : String)
  | ls (l : List String)
  | color (c : Color)
deriving DecidableEq, Repr

/-- Python `==` between a token and a string literal (directive dispatch:
`head == 'v'` etc.).  A numeric token never equals a directive word. -/
def tokEq (t : Tok) (w : String) : Bool :=
  match t with
  | .s v => v == w
  | _ => false

/-- Python `float(tok)`: a float or int literal converts; a non-numeric word
raises `ValueError`. -/
def pyFloat (t : Tok) : Except PyErr ℚ :=
  match t with
  | .s _ => .error .valueError
  | .q v => .ok v
  | .i n => .ok (n : ℚ)

/-- Python `int(tok)` on a string token: only an integer literal converts
(`int("3.5")` raises `ValueError`). -/
def pyToInt (t : Tok) : Except PyErr Int :=
  match t with
  | .i n => .ok n
  | _ => .error .valueError

/-- The string a token stands for (tokens are words of the text file; numeric
tokens are only used as names in unreachable corners). -/
def tokAsWord (t : Tok) : String :=
  match t with
  | .s w => w
  | .q v => toString v
  | .i n => toString n

/-- Python `int(·)` applied to a float: truncation toward zero. -/
def pyTruncInt (v : ℚ) : Int :=
  if v < 0 then -((-v).floor) else v.floor

/-- Python list indexing `l[i]`: nonnegative indices from the front, negative
indices wrap from the back, anything else raises `IndexError`. -/
def pyGet {α : Type} (l : List α) (i : Int) : Except PyErr α :=
  let j : Int := if i < 0 then (l.length : Int) + i else i
  if h : 0 ≤ j ∧ j.toNat < l.length then .ok (l.get ⟨j.toNat, h.2⟩)
  else .error .indexError

/-- Insertion-ordered Python `dict` assignment `d[k] = v`: an existing key is
updated in place, a new key is appended. -/
def pyDictSet {β : Type} (d : List (String × β)) (k : String) (v : β) :
    List (String × β) :=
  if d.any (fun p => p.1 == k) then
    d.map (fun p => if p.1 == k then (k, v) else p)
  else
    d ++ [(k, v)]

/-- Python `dict` lookup returning `none` when the key is absent. -/
def pyDictGet {β : Type} (d : List (String × β)) (k : String) : Option β :=
  (d.find? (fun p => p.1 == k)).map (fun p => p.2)

/-- `_ObjDescriptor`: shape kind tag (possibly unset), 1-based vertex-table
indices, and string-keyed attributes. -/
structure ObjDescriptor where
  kind : Option String
  vertex_indexes : List Int
  attributes : List (String × AttrVal)
deriving DecidableEq, Repr

/-- The `_ObjDescriptor` constructor: `kind or None` turns a falsy (empty)
kind into `None`, and `attributes['name'] = name` is set last, over whatever
attribute dict was passed in. -/
def mkObjDescriptor (name : String) (kind : Option String)
    (vertex_indexes : List Int) (attributes : List (String × AttrVal)) :
    ObjDescriptor :=
  { kind := if kind = some "" then none else kind
    vertex_indexes := vertex_indexes
    attributes := pyDictSet attributes "name" (AttrVal.s name) }

/-- Modelled from the spec: `utilities.iter_no_str` (not under `src/`) — "a
scalar value is written as a single token and any other iterable value is
flattened token-by-token". -/
def iterNoStr (v : AttrVal) : List Tok :=
  match v with
  | .s w => [.s w]
  | .ls l => l.map .s
  | .color c => [.i c.r, .i c.g, .i c.b]

/-- Split a character list on a separator character (the char-level analogue
of `str.split(sep)`, written structurally so it computes by reduction). -/
def splitOnChar (c : Char) : List Char → List (List Char)
  | [] => [[]]
  | ch :: rest =>
    match splitOnChar c rest with
    | [] => [[ch]]
    | g :: gs => if ch = c then [] :: g :: gs else (ch :: g) :: gs

/-- Join character groups with a separator character (`sep.join`). -/
def joinChar (c : Char) : List (List Char) → List Char
  | [] => []
  | [g] => g
  | g :: g' :: gs => g ++ c :: joinChar c (g' :: gs)

/-- Modelled from the spec: `os.path.basename` — the final path component. -/
def pathBasename (s : String) : String :=
  ⟨(splitOnChar '/' s.data).getLastD []⟩

/-- Modelled from the spec: `os.path.dirname` of the (absolute) file name —
everything before the final path component. -/
def pathDirname (s : String) : String :=
  ⟨joinChar '/' ((splitOnChar '/' s.data).dropLast)⟩

/-- `path.basename(file.name).split('.')[0]`: the implicit object name for a
file with no `o` directive. -/
def implicitName (s : String) : String :=
  ⟨(splitOnChar '.' (pathBasename s).data).headD []⟩

/-- `str.lower()`, written structurally so it computes by reduction. -/
def pyLower (s : String) : String :=
  ⟨s.data.map Char.toLower⟩

/-! ## The parser (`_parse_objs`) -/

/-- The mutable state threaded through `_parse_objs`' line loop.  In the
source `current_obj` can in principle be `None`, but it is seeded before the
loop and replaced (never cleared) by the `o` branch, so the `is not None`
guards are always true and it is carried here directly. -/
structure ParseState where
  descriptors : List ObjDescriptor
  vertices : List (Option Point)
  globals_ : List (String × AttrVal)
  materials : List (String × Color)
  current_obj : ObjDescriptor
deriving DecidableEq, Repr

/-- The `Kd r g b` conversion: each channel is `int(float(x) * 0xFF)`, and
`Color(*channels)` needs exactly three channels. -/
def kdColor (body : List Tok) : Except PyErr Color := do
  let chans ← body.mapM (fun t => do
    let v ← pyFloat t
    pure (pyTruncInt (v * 0xFF)))
  match chans with
  | [r, g, b] => pure ⟨r, g, b⟩
  | _ => .error .typeError

/-- The material sub-language loop inside the `mtllib` branch: `head` is the
*outer* loop's head (the source's `head == '#'` test reads the shadowing
outer variable, so it never fires here), `mtl` is the pending material name
set by `newmtl` and consumed (and reset) by `Kd`. -/
def parseMtlLines (head : Tok) (mtl : Option String)
    (materials : List (String × Color)) :
    List Line → Except PyErr (List (String × Color))
  | [] => .ok materials
  | line :: rest =>
    if line.isEmpty || tokEq head "#" then
      parseMtlLines head mtl materials rest
    else
      match line with
      | [] => parseMtlLines head mtl materials rest
      | w0 :: wrest =>
        if tokEq w0 "newmtl" then do
          let m ← pyGet line 1
          parseMtlLines head (some (tokAsWord m)) materials rest
        else if tokEq w0 "Kd" then
          match mtl with
          | none => .error .assertionError
          | some m => do
            let c ← kdColor wrest
            parseMtlLines head none (pyDictSet materials m c) rest
        else
          parseMtlLines head mtl materials rest

/-- The `mtllib` branch: for each named library, record the raw body into
`globals_['mtllib']`, resolve the path against the primary file's directory,
open it in the ambient filesystem `fs` (a missing file raises an I/O error)
and run the material sub-language over its lines. -/
def mtllibLoop (fs : List (String × List Line)) (dirname : String)
    (head : Tok) (body : List Tok) (st : ParseState) :
    List Tok → Except PyErr ParseState
  | [] => .ok st
  | libname :: rest => do
    let st := { st with
      globals_ := pyDictSet st.globals_ "mtllib"
        (AttrVal.ls (body.map tokAsWord)) }
    let libpath := dirname ++ "/" ++ tokAsWord libname
    match pyDictGet fs libpath with
    | none => .error .ioError
    | some libLines => do
      let mats ← parseMtlLines head none st.materials libLines
      mtllibLoop fs dirname head body { st with materials := mats } rest

/-- One iteration of `_parse_objs`' main loop: dispatch on the head token of
a line.  Unrecognized directives fall through to the final case and are
silently ignored. -/
def parseLine (fileName : String) (fs : List (String × List Line))
    (st : ParseState) (line : Line) : Except PyErr ParseState :=
  match line with
  | [] => .ok st
  | head :: body =>
    if tokEq head "#" then .ok st
    else if tokEq head "mtllib" then
      mtllibLoop fs (pathDirname fileName) head body st body
    else if tokEq head "v" then
      match body with
      | x :: y :: _ => do
        let xv ← pyFloat x
        let yv ← pyFloat y
        .ok { st with vertices := st.vertices ++ [some ⟨xv, yv⟩] }
      | _ => .error .valueError
    else if tokEq head "o" then do
      let descriptors :=
        if st.current_obj.kind ≠ none then st.descriptors ++ [st.current_obj]
        else st.descriptors
      let nm ← pyGet body 0
      .ok { st with
        descriptors := descriptors
        current_obj := mkObjDescriptor (tokAsWord nm) none [] [] }
    else if tokEq head "usemtl" then do
      let mtlTok ← pyGet body 0
      let mtl := tokAsWord mtlTok
      let cur := { st.current_obj with
        attributes := pyDictSet st.current_obj.attributes "usemtl" (AttrVal.s mtl) }
      match pyDictGet st.materials mtl with
      | none => .error .keyError
      | some c => .ok { st with
          current_obj := { cur with
            attributes := pyDictSet cur.attributes "color" (AttrVal.color c) } }
    else if tokEq head "p" then do
      let t ← pyGet body 0
      let n ← pyToInt t
      .ok { st with current_obj := { st.current_obj with
        kind := some "point"
        vertex_indexes := st.current_obj.vertex_indexes ++ [n] } }
    else if tokEq head "l" then do
      let ns ← body.mapM pyToInt
      .ok { st with current_obj := { st.current_obj with
        kind := some (if body.length > 2 then "wireframe" else "line")
        vertex_indexes := st.current_obj.vertex_indexes ++ ns } }
    else if tokEq head "f" then do
      let ns ← body.mapM pyToInt
      .ok { st with current_obj := { st.current_obj with
        kind := some "polygon"
        vertex_indexes := st.current_obj.vertex_indexes ++ ns } }
    else .ok st

/-- The whole line loop of `_parse_objs`. -/
def parseLines (fileName : String) (fs : List (String × List Line)) :
    List Line → ParseState → Except PyErr ParseState
  | [], st => .ok st
  | line :: rest, st => do
    parseLines fileName fs rest (← parseLine fileName fs st line)

/-- `_parse_objs(file)`: seed the accumulator from the file's base name,
fold the line loop, and at end of stream finalize the current accumulator
unconditionally (`current_obj is not None` always holds). -/
def _parse_objs (fileName : String) (lines : List Line)
    (fs : List (String × List Line)) :
    Except PyErr (List ObjDescriptor × List (Option Point) × List (String × AttrVal)) := do
  let st ← parseLines fileName fs lines
    { descriptors := []
      vertices := [none]
      globals_ := []
      materials := []
      current_obj := mkObjDescriptor (implicitName fileName) none [] [] }
  .ok (st.descriptors ++ [st.current_obj], st.vertices, st.globals_)

/-! ## The serializer (`_dump_objs`)

The serializer writes to its sink as it goes, so it is embedded as the list
of lines written so far paired with an optional error: on `some e` the run
aborted after producing the listed lines. -/

/-- One emitted vertex line `v x y z 1.0`: the points of this format are
two-dimensional, so the destructuring `x, y, *z = vertex` leaves `z` empty
and it defaults to `1.0`. -/
def vLineOf (p : Point) : Line :=
  [.s "v", .q p.x, .q p.y, .q 1, .q 1]

/-- The vertex loop of `_dump_objs` over `vertices[1:]`; a `None` slot there
would fail the destructuring with a type error. -/
def dumpVerts : List (Option Point) → List Line × Option PyErr
  | [] => ([], none)
  | none :: _ => ([], some .typeError)
  | some p :: rest =>
    let r := dumpVerts rest
    (vLineOf p :: r.1, r.2)

/-- The global-directive section: one `<key> <values...>` line per entry, in
insertion order. -/
def dumpGlobals (gs : List (String × AttrVal)) : List Line :=
  gs.map (fun kv => .s kv.1 :: iterNoStr kv.2)

/-- The string interpolation `f"o {name}"`: the name attribute is a string in
both construction paths. -/
def attrTok (v : AttrVal) : Tok :=
  match v with
  | .s w => .s w
  | .ls l => .s (toString l)
  | .color c => .s (toString (c.r, c.g, c.b))

/-- Emit one descriptor: its `o` header, every attribute except `name` and
`color`, then exactly one geometry line chosen by `kind`.  An unset kind
fails (`None.lower()` is an attribute error) *after* the header and
attribute lines have been written; an unrecognized kind string writes no
geometry line at all (the `if`/`elif` chain has no `else`). -/
def dumpObj (obj : ObjDescriptor) : List Line × Option PyErr :=
  match pyDictGet obj.attributes "name" with
  | none => ([], some .keyError)
  | some nv =>
    let header : List Line :=
      [.s "o", attrTok nv] ::
        (obj.attributes.filter
          (fun kv => !(kv.1 == "name" || kv.1 == "color"))).map
          (fun kv => .s kv.1 :: iterNoStr kv.2)
    match obj.kind with
    | none => (header, some .attributeError)
    | some k =>
      let kind := pyLower k
      if kind = "point" then
        match pyGet obj.vertex_indexes 0 with
        | .error e => (header, some e)
        | .ok n => (header ++ [[.s "p", .i n]], none)
      else if kind = "line" then
        match obj.vertex_indexes with
        | [a, b] => (header ++ [[.s "l", .i a, .i b]], none)
        | _ => (header, some .valueError)
      else if kind = "wireframe" then
        (header ++ [.s "l" :: obj.vertex_indexes.map .i], none)
      else if kind = "polygon" then
        (header ++ [.s "f" :: obj.vertex_indexes.map .i], none)
      else (header, none)

/-- The descriptor loop of `_dump_objs`. -/
def dumpObjs : List ObjDescriptor → List Line × Option PyErr
  | [] => ([], none)
  | obj :: rest =>
    let r := dumpObj obj
    match r.2 with
    | some e => (r.1, some e)
    | none =>
      let r' := dumpObjs rest
      (r.1 ++ r'.1, r'.2)

/-- `_dump_objs(file, descriptors, vertices, globals_)`: vertex section,
global section, then one section per descriptor. -/
def _dump_objs (descriptors : List ObjDescriptor)
    (vertices : List (Option Point)) (globals_ : List (String × AttrVal)) :
    List Line × Option PyErr :=
  let v := dumpVerts (vertices.drop 1)
  match v.2 with
  | some e => (v.1, some e)
  | none =>
    let o := dumpObjs descriptors
    (v.1 ++ dumpGlobals globals_ ++ o.1, o.2)

/-! ## The session (`ObjFile`) -/

/-- The state of an open `ObjFile` session. -/
structure ObjFile where
  mode : String
  descriptors : List ObjDescriptor
  vertices : List (Option Point)
  globals_ : List (String × AttrVal)
deriving DecidableEq, Repr

/-- `Point(*v)` on a fetched vertex-table slot: the sentinel `None` cannot be
splatted into a constructor call (type error); a real point is copied. -/
def pointStar (v : Option Point) : Except PyErr Point :=
  match v with
  | none => .error .typeError
  | some p => .ok ⟨p.x, p.y⟩

/-- `ObjFile._obj_to_drawable`: translate one descriptor back into a drawable
and its attributes.  A kind outside the four known tags (including an unset
kind) leaves `drawable = None`. -/
def _obj_to_drawable (vertices : List (Option Point)) (obj : ObjDescriptor) :
    Except PyErr (Option Drawable × List (String × AttrVal)) :=
  if obj.kind = some "point" then do
    let i0 ← pyGet obj.vertex_indexes 0
    let v ← pyGet vertices i0
    let p ← pointStar v
    .ok (some (.point p), obj.attributes)
  else if obj.kind = some "line" then do
    let i0 ← pyGet obj.vertex_indexes 0
    let a ← pyGet vertices i0
    let i1 ← pyGet obj.vertex_indexes 1
    let b ← pyGet vertices i1
    let pa ← pointStar a
    let pb ← pointStar b
    .ok (some (.line pa pb), obj.attributes)
  else if obj.kind = some "wireframe" ∨ obj.kind = some "polygon" then do
    let points ← obj.vertex_indexes.mapM (fun i => do
      pointStar (← pyGet vertices i))
    if obj.kind = some "polygon" then .ok (some (.polygon points), obj.attributes)
    else .ok (some (.wireframe points), obj.attributes)
  else .ok (none, obj.attributes)

/-- `ObjFile.read`: a mode assertion, then eager translation of every
descriptor in order (the first failing translation aborts the whole list,
as the iteration raises). -/
def ObjFile.read (f : ObjFile) :
    Except PyErr (List (Option Drawable × List (String × AttrVal))) :=
  if f.mode = "r" ∨ f.mode = "r+" then
    f.descriptors.mapM (_obj_to_drawable f.vertices)
  else .error .assertionError

/-- The vertex-registration loop of `_drawable_to_obj`'s wireframe branch:
append each point, then record `len(vertices) - 1`. -/
def appendPts (vertices : List (Option Point)) :
    List Point → List (Option Point) × List Int
  | [] => (vertices, [])
  | p :: rest =>
    let vs := vertices ++ [some ⟨p.x, p.y⟩]
    let r := appendPts vs rest
    (r.1, ((vs.length : Int) - 1) :: r.2)

/-- `ObjFile._drawable_to_obj`: build a fresh descriptor from a drawable,
registering its points in the vertex table before indexing them; returns the
descriptor and the grown table. -/
def _drawable_to_obj (vertices : List (Option Point)) (drawable : Drawable)
    (name : String) (kwargs : List (String × AttrVal)) :
    ObjDescriptor × List (Option Point) :=
  let obj := mkObjDescriptor name none [] kwargs
  match drawable with
  | .point p =>
    let vs := vertices ++ [some ⟨p.x, p.y⟩]
    ({ obj with kind := some "point", vertex_indexes := [(vs.length : Int) - 1] }, vs)
  | .line a b =>
    let vs := vertices ++ [some ⟨a.x, a.y⟩, some ⟨b.x, b.y⟩]
    let n : Int := (vs.length : Int) - 1
    ({ obj with kind := some "line", vertex_indexes := [n - 1, n] }, vs)
  | .wireframe ps =>
    let r := appendPts vertices ps
    ({ obj with kind := some "wireframe", vertex_indexes := r.2 }, r.1)
  | .polygon ps =>
    let r := appendPts vertices ps
    ({ obj with kind := some "polygon", vertex_indexes := r.2 }, r.1)

/-- `ObjFile.write`: a mode assertion, then append the freshly built
descriptor (the vertex table grows as a side effect). -/
def ObjFile.write (f : ObjFile) (drawable : Drawable) (name : String)
    (kwargs : List (String × AttrVal)) : Except PyErr ObjFile :=
  if f.mode = "w" ∨ f.mode = "w+" ∨ f.mode = "r+" then
    let r := _drawable_to_obj f.vertices drawable name kwargs
    .ok { f with descriptors := f.descriptors ++ [r.1], vertices := r.2 }
  else .error .assertionError

/-- `ObjFile.close`: serialize on close when the session is write-capable and
at least one descriptor is buffered; the result is what gets written to the
underlying file. -/
def ObjFile.close (f : ObjFile) : List Line × Option PyErr :=
  if (f.mode = "w" ∨ f.mode = "w+" ∨ f.mode = "r+") ∧ f.descriptors.length > 0 then
    _dump_objs f.descriptors f.vertices f.globals_
  else ([], none)

/-- `ObjFile.__init__`: read modes parse eagerly; otherwise the mode is
asserted to be a write mode and the buffers start empty, with the keyword
arguments as the global directives. -/
def ObjFile.init (fileName : String) (lines : List Line)
    (fs : List (String × List Line)) (mode : String)
    (kwargs : List (String × AttrVal)) : Except PyErr ObjFile :=
  if mode = "r" ∨ mode = "r+" then do
    let r ← _parse_objs fileName lines fs
    .ok { mode := mode, descriptors := r.1, vertices := r.2.1, globals_ := r.2.2 }
  else if mode = "w" ∨ mode = "w+" then
    .ok { mode := mode, descriptors := [], vertices := [none], globals_ := kwargs }
  else .error .assertionError

/-- CPython's own mode-string validation inside `builtins.open`: every
character must be one of the mode letters, and exactly one of the
create/read/write/append letters `x`/`r`/`w`/`a` must appear (so `'r+w'`
raises `ValueError: must have exactly one of create/read/write/append mode`
and `'R'` raises `ValueError: invalid mode`), before any file I/O. -/
def pyOpenModeOk (mode : String) : Bool :=
  mode.data.all (fun c => c ∈ ['r', 'w', 'x', 'a', 'b', 't', '+', 'U']) &&
  mode.data.count 'x' + mode.data.count 'r' +
    mode.data.count 'w' + mode.data.count 'a' == 1

/-- The module-level `open`: the mode gate is the tuple
`('r', 'r+' 'w', 'w+')` as written in the source — the missing comma makes
Python concatenate the adjacent literals into `'r+w'`, so the accepted
lowered modes are `'r'`, `'r+w'` and `'w+'`.  A mode that passes the gate is
then handed (unlowered) to `builtins.open(path, mode)`, whose own mode
parsing can still raise `ValueError` before `ObjFile.__init__` runs. -/
def objOpen (fileName : String) (lines : List Line)
    (fs : List (String × List Line)) (mode : String)
    (kwargs : List (String × AttrVal)) : Except PyErr ObjFile :=
  if ¬(pyLower mode = "r" ∨ pyLower mode = "r+w" ∨ pyLower mode = "w+") then
    .error .valueError
  else if ¬ pyOpenModeOk mode then .error .valueError
  else ObjFile.init fileName lines fs mode kwargs

/-! ## Derived notions used by the verified properties -/

/-- The central cross-entity invariant of the spec: the vertex table keeps its
sentinel slot, and every held descriptor's vertex indices are 1-based and
resolve within the table. -/
def IndexInv (f : ObjFile) : Prop :=
  1 ≤ f.vertices.length ∧
  ∀ d ∈ f.descriptors, ∀ i ∈ d.vertex_indexes, 1 ≤ i ∧ i < (f.vertices.length : Int)

instance (f : ObjFile) : Decidable (IndexInv f) := by
  unfold IndexInv; infer_instance

/-- Whether an `Except` computation succeeded. -/
def exOk {ε α : Type} (e : Except ε α) : Bool :=
  match e with
  | .ok _ => true
  | .error _ => false

/-- A well-formed `v`-or-geometry line: the minimal-input shape of the
"implicit object" property (a `v` line with two numeric coordinates, or a
`p`/`l`/`f` line whose indices are integer literals). -/
def vgLine (l : Line) : Bool :=
  match l with
  | [] => false
  | head :: body =>
    (tokEq head "v" && match body with
      | x :: y :: _ => exOk (pyFloat x) && exOk (pyFloat y)
      | _ => false)
    || (tokEq head "p" && match body with
      | t :: _ => exOk (pyToInt t)
      | _ => false)
    || ((tokEq head "l" || tokEq head "f") && body.all (fun t => exOk (pyToInt t)))

/-- The constituent points a drawable enumerates. -/
def ptsOf : Drawable → List Point
  | .point p => [p]
  | .line a b => [a, b]
  | .wireframe ps => ps
  | .polygon ps => ps

/-- The kind tag `_drawable_to_obj` assigns to each drawable variant. -/
def kindOf : Drawable → String
  | .point _ => "point"
  | .line _ _ => "line"
  | .wireframe _ => "wireframe"
  | .polygon _ => "polygon"

/-- `n` consecutive 1-based indices starting at `start`. -/
def idxsFrom (start : Nat) : Nat → List Int
  | 0 => []
  | n + 1 => (start : Int) :: idxsFrom (start + 1) n

/-- The descriptor `append` builds for drawable/name pair `w` when `off`
points already occupy the vertex table. -/
def descOf (off : Nat) (w : Drawable × String) : ObjDescriptor :=
  { kind := some (kindOf w.1)
    vertex_indexes := idxsFrom (off + 1) (ptsOf w.1).length
    attributes := [("name", AttrVal.s w.2)] }

/-- The descriptors a write session accumulates for the pairs `ws`, starting
from a table holding `off` points. -/
def descsOf : Nat → List (Drawable × String) → List ObjDescriptor
  | _, [] => []
  | off, w :: rest => descOf off w :: descsOf (off + (ptsOf w.1).length) rest

/-- All points of a sequence of drawable/name pairs, in write order. -/
def allPts (ws : List (Drawable × String)) : List Point :=
  (ws.map (fun w => ptsOf w.1)).flatten

/-- Append a whole sequence of drawable/name pairs through `ObjFile.write`
(no extra attributes). -/
def writeAll (f : ObjFile) : List (Drawable × String) → Except PyErr ObjFile
  | [] => .ok f
  | w :: rest => do writeAll (← ObjFile.write f w.1 w.2 []) rest

/-- The geometry line the serializer emits for `w`'s descriptor. -/
def geomLineOf (off : Nat) (w : Drawable × String) : Line :=
  match w.1 with
  | .point _ => .s "p" :: (idxsFrom (off + 1) 1).map .i
  | .line _ _ => .s "l" :: (idxsFrom (off + 1) 2).map .i
  | .wireframe ps => .s "l" :: (idxsFrom (off + 1) ps.length).map .i
  | .polygon ps => .s "f" :: (idxsFrom (off + 1) ps.length).map .i

/-- The object sections the serializer emits for the pairs `ws` (an `o`
header followed by one geometry line each — no other attributes). -/
def objSections : Nat → List (Drawable × String) → List Line
  | _, [] => []
  | off, w :: rest =>
    [.s "o", .s w.2] :: geomLineOf off w :: objSections (off + (ptsOf w.1).length) rest

/-- The vertex section the serializer emits for the table `[none] ++ ps`. -/
def vSection (ps : List Point) : List Line :=
  ps.map vLineOf

/-- Round-trip well-formedness of one written pair: a wireframe needs more
than two points (or its `l` line re-parses as a line segment), and the name
must be a single word for the token-level file model to be faithful to
`str.split()`. -/
def c1Wf (w : Drawable × String) : Bool :=
  (match w.1 with
   | .wireframe ps => decide (2 < ps.length)
   | _ => true)
  && (w.2 ≠ "" && w.2.toList.all (fun c => !c.isWhitespace))

/-- The last element of a descriptor list, with a default. -/
def lastDesc (d : ObjDescriptor) : List ObjDescriptor → ObjDescriptor
  | [] => d
  | [x] => x
  | _ :: x :: rest => lastDesc d (x :: rest)

/-- A concrete four-drawable write sequence (one of each kind), used as the
round-trip witness input. -/
def rtWs : List (Drawable × String) :=
  [(.point ⟨1, 2⟩, "A"), (.line ⟨5, 6⟩ ⟨7, 8⟩, "B"),
   (.wireframe [⟨0, 0⟩, ⟨2, 0⟩, ⟨0, 2⟩], "C"), (.polygon [⟨0, 0⟩, ⟨1, 0⟩, ⟨0, 1⟩], "D")]

/-! ## Helper lemmas -/

theorem pyGet_ofNat {α : Type} (l : List α) (k : Nat) (h : k < l.length) :
    pyGet l (k : Int) = .ok (l.get ⟨k, h⟩) := by
  have h0 : ¬ ((k : Int) < 0) := by omega
  simp only [pyGet, h0, if_false]
  rw [dif_pos]
  · simp
  · constructor
    · omega
    · simpa using h

theorem pyGet_cons_zero {α : Type} (a : α) (l : List α) :
    pyGet (a :: l) 0 = .ok a := by
  have := pyGet_ofNat (a :: l) 0 (by simp)
  simpa using this

theorem mapM_pyToInt (l : List Int) : (l.map Tok.i).mapM pyToInt = .ok l := by
  induction l with
  | nil => rfl
  | cons a t ih =>
    rw [List.map_cons, List.mapM_cons, ih]
    rfl

theorem tokEq_true {t : Tok} {w : String} (h : tokEq t w = true) : t = .s w := by
  cases t with
  | s v => simpa [tokEq] using congrArg Tok.s (by simpa [tokEq] using h)
  | q v => simp [tokEq] at h
  | i n => simp [tokEq] at h

theorem exOk_true {ε α : Type} {e : Except ε α} (h : exOk e = true) :
    ∃ a, e = .ok a := by
  cases e with
  | ok a => exact ⟨a, rfl⟩
  | error _ => simp [exOk] at h

theorem mapM_pyToInt_of_all {body : List Tok}
    (h : body.all (fun t => exOk (pyToInt t)) = true) :
    ∃ ns : List Int, body.mapM pyToInt = .ok ns := by
  induction body with
  | nil => exact ⟨[], rfl⟩
  | cons t rest ih =>
    simp only [List.all_cons, Bool.and_eq_true] at h
    obtain ⟨n, hn⟩ := exOk_true h.1
    obtain ⟨ns, hns⟩ := ih h.2
    refine ⟨n :: ns, ?_⟩
    rw [List.mapM_cons, hn, hns]
    rfl

/-! ## C2 — the `open` mode gate -/

/-- C2: the claim says the module-level `open` accepts exactly the four mode
strings `'r'`, `'r+'`, `'w'`, `'w+'` and rejects everything else with an
invalid-mode error.  The code's membership test reads
`('r', 'r+' 'w', 'w+')`: the missing comma concatenates the middle literals
into `'r+w'`, so `'w'` and `'r+'` — two of the four documented modes, listed
in the raised error message itself and asserted in `ObjFile.__init__` — are
rejected with the invalid-mode `ValueError`.  The unintended `'r+w'` passes
the module's own gate (third conjunct), and `open` still fails on it, but
only because `builtins.open`'s mode parsing raises its own `ValueError`
("must have exactly one of create/read/write/append mode") before
`ObjFile.__init__` runs. -/
theorem c2_open_mode_gate :
    objOpen "f.obj" [] [] "w" [] = .error .valueError ∧
    objOpen "f.obj" [] [] "r+" [] = .error .valueError ∧
    (pyLower "r+w" = "r" ∨ pyLower "r+w" = "r+w" ∨ pyLower "r+w" = "w+") ∧
    pyOpenModeOk "r+w" = false ∧
    objOpen "f.obj" [] [] "r+w" [] = .error .valueError := by
  exact ⟨rfl, rfl, Or.inr (Or.inl rfl), rfl, rfl⟩

/-! ## C6 — mode enforcement -/

/-- C6: `read` on a session opened in a write-only mode (`'w'` or `'w+'`)
fails with the mode-violation assertion error, and `write` on a read-only
(`'r'`) session fails the same way, whatever the session holds. -/
theorem c6_mode_enforcement :
    ∀ (ds : List ObjDescriptor) (vs : List (Option Point))
      (gs : List (String × AttrVal)) (d : Drawable) (nm : String)
      (kw : List (String × AttrVal)),
      ObjFile.read ⟨"w", ds, vs, gs⟩ = .error .assertionError ∧
      ObjFile.read ⟨"w+", ds, vs, gs⟩ = .error .assertionError ∧
      ObjFile.write ⟨"r", ds, vs, gs⟩ d nm kw = .error .assertionError :=
  fun _ _ _ _ _ _ => ⟨rfl, rfl, rfl⟩

/-! ## C8 — material resolution -/

/-- C8: parsing a primary file whose `mtllib` side-file defines
`newmtl red` / `Kd 1.0 0.0 0.0` and which contains `usemtl red` produces a
descriptor whose `color` attribute is the RGB color `(255, 0, 0)` (the
fractional channels scaled by `0xFF` and truncated to integers); a `usemtl`
naming a material absent from the material table fails with the
material-not-found `KeyError`. -/
theorem c8_material_resolution :
    _parse_objs "/tmp/scene.obj"
      [[.s "mtllib", .s "m.mtl"], [.s "v", .q 0, .q 0],
       [.s "usemtl", .s "red"], [.s "p", .i 1]]
      [("/tmp/m.mtl", [[.s "newmtl", .s "red"], [.s "Kd", .q 1, .q 0, .q 0]])] =
      .ok ([⟨some "point", [1],
            [("name", .s "scene"), ("usemtl", .s "red"),
             ("color", .color ⟨255, 0, 0⟩)]⟩],
           [none, some ⟨0, 0⟩], [("mtllib", .ls ["m.mtl"])]) ∧
    _parse_objs "/tmp/scene.obj"
      [[.s "mtllib", .s "m.mtl"], [.s "v", .q 0, .q 0],
       [.s "usemtl", .s "unknown"], [.s "p", .i 1]]
      [("/tmp/m.mtl", [[.s "newmtl", .s "red"], [.s "Kd", .q 1, .q 0, .q 0]])] =
      .error .keyError :=
  ⟨rfl, rfl⟩

/-! ## More helper lemmas -/

theorem ok_bind {ε α β : Type} (a : α) (f : α → Except ε β) :
    (Except.ok a >>= f) = f a := rfl

theorem error_bind {ε α β : Type} (e : ε) (f : α → Except ε β) :
    ((Except.error e : Except ε α) >>= f) = .error e := rfl

theorem appendPts_spec (ps : List Point) : ∀ vs : List (Option Point),
    appendPts vs ps =
      (vs ++ ps.map (fun p => some ⟨p.x, p.y⟩), idxsFrom vs.length ps.length) := by
  induction ps with
  | nil => intro vs; simp [appendPts, idxsFrom]
  | cons p rest ih =>
    intro vs
    simp only [appendPts, ih, List.map_cons, List.length_append, List.length_cons,
      List.length_nil, idxsFrom]
    refine Prod.ext ?_ ?_
    · simp [List.append_assoc]
    · simp only []
      congr 1
      push_cast
      ring

theorem mem_idxsFrom {i : Int} : ∀ (L k : Nat), i ∈ idxsFrom L k →
    (L : Int) ≤ i ∧ i < (L : Int) + k := by
  intro L k
  induction k generalizing L with
  | zero => simp [idxsFrom]
  | succ k ih =>
    intro hmem
    simp only [idxsFrom, List.mem_cons] at hmem
    rcases hmem with rfl | hmem
    · omega
    · have := ih (L + 1) hmem
      push_cast at this ⊢
      omega

/-- What `_drawable_to_obj` builds, in closed form: the kind tag of the
drawable's variant, consecutive 1-based indices pointing at the freshly
appended copies of its points, and the keyword attributes with `name` set. -/
theorem drawable_to_obj_spec (vs : List (Option Point)) (d : Drawable)
    (nm : String) (kw : List (String × AttrVal)) :
    _drawable_to_obj vs d nm kw =
      ({ kind := some (kindOf d)
         vertex_indexes := idxsFrom vs.length (ptsOf d).length
         attributes := pyDictSet kw "name" (AttrVal.s nm) },
       vs ++ (ptsOf d).map (fun p => some ⟨p.x, p.y⟩)) := by
  cases d with
  | point p =>
    simp [_drawable_to_obj, mkObjDescriptor, kindOf, ptsOf, idxsFrom]
  | line a b =>
    simp [_drawable_to_obj, mkObjDescriptor, kindOf, ptsOf, idxsFrom]
    constructor <;> omega
  | wireframe ps =>
    simp [_drawable_to_obj, mkObjDescriptor, kindOf, ptsOf, appendPts_spec]
  | polygon ps =>
    simp [_drawable_to_obj, mkObjDescriptor, kindOf, ptsOf, appendPts_spec]

theorem dumpObj_kind_none {obj : ObjDescriptor} (h : obj.kind = none) :
    (dumpObj obj).2 ≠ none := by
  rcases hg : pyDictGet obj.attributes "name" with _ | nv
  · simp [dumpObj, hg]
  · simp [dumpObj, hg, h]

theorem dumpObjs_kinds : ∀ ds : List ObjDescriptor,
    (dumpObjs ds).2 = none → ∀ d ∈ ds, d.kind ≠ none := by
  intro ds
  induction ds with
  | nil => simp
  | cons d rest ih =>
    intro h
    rcases hr : (dumpObj d).2 with _ | e
    · intro dd hdd
      rcases List.mem_cons.1 hdd with rfl | hdd'
      · intro hk
        exact dumpObj_kind_none hk hr
      · have h2 : (dumpObjs rest).2 = none := by
          simp only [dumpObjs, hr] at h
          exact h
        exact ih h2 dd hdd'
    · exfalso
      simp only [dumpObjs, hr] at h
      exact Option.noConfusion h

/-! ## C3 — no unset-kind descriptor is successfully serialized -/

/-- C3 (corrected): successful serialization implies every descriptor's kind
was set — but a kindless descriptor is neither handled nor excluded: it
aborts the whole dump with an attribute error (see the counterexample, where
its `o` header has already been written when the abort happens). -/
theorem c3_dump_ok_kinds_set (ds : List ObjDescriptor)
    (vs : List (Option Point)) (gs : List (String × AttrVal)) (out : List Line)
    (h : _dump_objs ds vs gs = (out, none)) : ∀ d ∈ ds, d.kind ≠ none := by
  unfold _dump_objs at h
  rcases hv : (dumpVerts (vs.drop 1)).2 with _ | e
  · simp only [hv] at h
    exact dumpObjs_kinds ds (congrArg Prod.snd h)
  · simp only [hv] at h
    exact absurd (congrArg Prod.snd h) (by simp)

/-- C3 counterexample: parsing an empty file finalizes the kindless implicit
accumulator into the descriptor list, and reserializing that session does
*not* handle or exclude the kindless descriptor — it emits its `o f` header
and then aborts with an attribute error (`None.lower()`). -/
theorem c3_counterexample :
    _parse_objs "f.obj" [] [] =
      .ok ([⟨none, [], [("name", .s "f")]⟩], [none], []) ∧
    _dump_objs [⟨none, [], [("name", .s "f")]⟩] [none] [] =
      ([[.s "o", .s "f"]], some .attributeError) :=
  ⟨rfl, rfl⟩

/-- Witness for `c3_dump_ok_kinds_set` at a concrete successful dump. -/
theorem c3_witness :
    (⟨some "point", [1], [("name", AttrVal.s "A")]⟩ : ObjDescriptor).kind ≠ none :=
  c3_dump_ok_kinds_set [⟨some "point", [1], [("name", .s "A")]⟩]
    [none, some ⟨1, 2⟩] []
    [[.s "v", .q 1, .q 2, .q 1, .q 1], [.s "o", .s "A"], [.s "p", .i 1]] rfl
    ⟨some "point", [1], [("name", .s "A")]⟩ (by simp)

/-! ## C4 — the 1-based indexing invariant -/

/-- C4 (corrected): the invariant holds for write sessions by construction —
`ObjFile.write` preserves it, with the new descriptor's indices pointing at
the freshly appended vertices.  (For read sessions it holds only if the
input file's indices happen to be in range; see the counterexample.) -/
theorem c4_write_preserves_index_invariant (f : ObjFile) (d : Drawable)
    (nm : String) (kw : List (String × AttrVal)) (f' : ObjFile)
    (hinv : IndexInv f) (hw : ObjFile.write f d nm kw = .ok f') :
    IndexInv f' := by
  unfold ObjFile.write at hw
  by_cases hm : f.mode = "w" ∨ f.mode = "w+" ∨ f.mode = "r+"
  · rw [if_pos hm, drawable_to_obj_spec] at hw
    obtain rfl : _ = f' := congrArg (fun e => match e with | .ok x => x | .error _ => f) hw
    obtain ⟨hlen, hmem⟩ := hinv
    constructor
    · simp
      omega
    · intro dd hdd i hi
      simp only [List.mem_append, List.mem_singleton] at hdd
      rcases hdd with hdd | rfl
      · have := hmem dd hdd i hi
        simp only [List.length_append, List.length_map]
        push_cast
        omega
      · have := mem_idxsFrom f.vertices.length (ptsOf d).length hi
        simp only [List.length_append, List.length_map]
        push_cast
        omega
  · rw [if_neg hm] at hw
    exact absurd hw (by simp)

/-- Witness for `c4_write_preserves_index_invariant`: one point appended to
a fresh write session. -/
theorem c4_witness :
    IndexInv ⟨"w", [⟨some "point", [1], [("name", .s "A")]⟩],
      [none, some ⟨1, 2⟩], []⟩ :=
  c4_write_preserves_index_invariant ⟨"w", [], [none], []⟩ (.point ⟨1, 2⟩)
    "A" [] _ (by decide) rfl

/-- C4 counterexample: a read session parsed from `p 5` (no vertices) holds —
and translates — a descriptor whose index 5 is far beyond the table length 1,
so the claimed invariant fails for read sessions: the parser never validates
indices. -/
theorem c4_counterexample :
    _parse_objs "f.obj" [[.s "p", .i 5]] [] =
      .ok ([⟨some "point", [5], [("name", .s "f")]⟩], [none], []) ∧
    ¬ IndexInv ⟨"r", [⟨some "point", [5], [("name", .s "f")]⟩], [none], []⟩ ∧
    ObjFile.read ⟨"r", [⟨some "point", [5], [("name", .s "f")]⟩], [none], []⟩ =
      .error .indexError :=
  ⟨rfl, by decide, rfl⟩

/-! ## C5 — out-of-range indices surface lazily -/

/-- C5 counterexample: the index `-1` does not resolve within the 1-based
vertex table, yet the session fails nowhere: parsing succeeds *and*
translation succeeds, because Python's negative indexing wraps around to the
last vertex instead of raising `IndexError`. -/
theorem c5_counterexample :
    _parse_objs "f.obj" [[.s "v", .q 7, .q 8], [.s "p", .i (-1)]] [] =
      .ok ([⟨some "point", [-1], [("name", .s "f")]⟩], [none, some ⟨7, 8⟩], []) ∧
    ObjFile.read ⟨"r", [⟨some "point", [-1], [("name", .s "f")]⟩],
        [none, some ⟨7, 8⟩], []⟩ =
      .ok [(some (.point ⟨7, 8⟩), [("name", .s "f")])] :=
  ⟨rfl, rfl⟩

/-- C5 (corrected): for every index `n ≥ 1` beyond the table, parsing `p n`
succeeds — the parser never consults the vertex table — and the failure
surfaces lazily at translation time as `IndexError`; but index `0` resolves
to the sentinel slot and surfaces as a *type* error instead. -/
theorem c5_lazy_index_errors (n : Int) (h : 1 ≤ n) :
    _parse_objs "f.obj" [[.s "p", .i n]] [] =
      .ok ([⟨some "point", [n], [("name", .s "f")]⟩], [none], []) ∧
    ObjFile.read ⟨"r", [⟨some "point", [n], [("name", .s "f")]⟩], [none], []⟩ =
      .error .indexError ∧
    ObjFile.read ⟨"r", [⟨some "point", [0], [("name", .s "f")]⟩], [none], []⟩ =
      .error .typeError := by
  refine ⟨rfl, ?_, rfl⟩
  have h0 : ¬ (n < 0) := by omega
  show [(⟨some "point", [n], [("name", .s "f")]⟩ : ObjDescriptor)].mapM
      (_obj_to_drawable [none]) = .error .indexError
  rw [List.mapM_cons]
  have hget : pyGet ([none] : List (Option Point)) n = .error .indexError := by
    simp [pyGet, h0]
    omega
  simp [_obj_to_drawable, pyGet_cons_zero, hget, ok_bind, error_bind]

/-- Witness for `c5_lazy_index_errors` at `n = 5`. -/
theorem c5_witness :
    _parse_objs "f.obj" [[.s "p", .i 5]] [] =
      .ok ([⟨some "point", [5], [("name", .s "f")]⟩], [none], []) ∧
    ObjFile.read ⟨"r", [⟨some "point", [5], [("name", .s "f")]⟩], [none], []⟩ =
      .error .indexError ∧
    ObjFile.read ⟨"r", [⟨some "point", [0], [("name", .s "f")]⟩], [none], []⟩ =
      .error .typeError :=
  c5_lazy_index_errors 5 (by decide)

/-! ## C10 — an `o` directive discards a kindless accumulator -/

/-- C10: when the parser hits an `o` directive while the current
accumulator's kind is still unset, the accumulator is dropped whole: the
descriptor list is left untouched and the accumulator is replaced by a fresh
descriptor carrying only the new name — whatever name and attributes
(e.g. a `usemtl`/`color` attached before any geometry directive) it had
accumulated are gone. -/
theorem c10_o_discards_kindless (fileName : String)
    (fs : List (String × List Line)) (st : ParseState) (nmTok : Tok)
    (rest : List Tok) (h : st.current_obj.kind = none) :
    parseLine fileName fs st (.s "o" :: nmTok :: rest) =
      .ok { st with current_obj := mkObjDescriptor (tokAsWord nmTok) none [] [] } := by
  simp [parseLine, h, pyGet_cons_zero, ok_bind, tokEq]

/-- Witness for `c10_o_discards_kindless`: a kindless accumulator holding a
name, a `usemtl` and a resolved color is discarded whole by `o X`. -/
theorem c10_witness :
    parseLine "f.obj" []
      ⟨[], [none], [], [("red", ⟨255, 0, 0⟩)],
        ⟨none, [], [("name", .s "f"), ("usemtl", .s "red"),
                    ("color", .color ⟨255, 0, 0⟩)]⟩⟩
      [.s "o", .s "X"] =
      .ok ⟨[], [none], [], [("red", ⟨255, 0, 0⟩)],
        ⟨none, [], [("name", .s "X")]⟩⟩ :=
  c10_o_discards_kindless "f.obj" [] _ (.s "X") [] rfl

theorem mapM_loop_pyToInt (idx : List Int) : ∀ acc : List Int,
    List.mapM.loop pyToInt (idx.map Tok.i) acc = .ok (acc.reverse ++ idx) := by
  induction idx with
  | nil =>
    intro acc
    simp [List.mapM.loop]
    rfl
  | cons a t ih => intro acc; simp [List.mapM.loop, pyToInt, ih, ok_bind]

theorem parseLine_v (fn : String) (fs : List (String × List Line))
    (st : ParseState) (x y : ℚ) (rest : List Tok) :
    parseLine fn fs st (.s "v" :: .q x :: .q y :: rest) =
      .ok { st with vertices := st.vertices ++ [some ⟨x, y⟩] } := rfl

theorem parseLine_p (fn : String) (fs : List (String × List Line))
    (st : ParseState) (n : Int) (rest : List Tok) :
    parseLine fn fs st (.s "p" :: .i n :: rest) =
      .ok { st with current_obj := { st.current_obj with
        kind := some "point"
        vertex_indexes := st.current_obj.vertex_indexes ++ [n] } } := by
  simp [parseLine, tokEq, pyGet_cons_zero, ok_bind, pyToInt]

theorem parseLine_l (fn : String) (fs : List (String × List Line))
    (st : ParseState) (idx : List Int) :
    parseLine fn fs st (.s "l" :: idx.map .i) =
      .ok { st with current_obj := { st.current_obj with
        kind := some (if idx.length > 2 then "wireframe" else "line")
        vertex_indexes := st.current_obj.vertex_indexes ++ idx } } := by
  simp [parseLine, tokEq, mapM_loop_pyToInt, ok_bind, List.mapM]

theorem parseLine_f (fn : String) (fs : List (String × List Line))
    (st : ParseState) (idx : List Int) :
    parseLine fn fs st (.s "f" :: idx.map .i) =
      .ok { st with current_obj := { st.current_obj with
        kind := some "polygon"
        vertex_indexes := st.current_obj.vertex_indexes ++ idx } } := by
  simp [parseLine, tokEq, mapM_loop_pyToInt, ok_bind, List.mapM]

theorem parseLine_o (fn : String) (fs : List (String × List Line))
    (st : ParseState) (nmTok : Tok) (rest : List Tok) :
    parseLine fn fs st (.s "o" :: nmTok :: rest) =
      .ok { st with
        descriptors :=
          if st.current_obj.kind ≠ none then st.descriptors ++ [st.current_obj]
          else st.descriptors
        current_obj := mkObjDescriptor (tokAsWord nmTok) none [] [] } := by
  simp [parseLine, tokEq, pyGet_cons_zero, ok_bind]

theorem parseLines_append (fn : String) (fs : List (String × List Line))
    (xs ys : List Line) : ∀ st : ParseState,
    parseLines fn fs (xs ++ ys) st =
      (parseLines fn fs xs st) >>= parseLines fn fs ys := by
  induction xs with
  | nil => intro st; simp [parseLines, ok_bind]
  | cons x xs ih =>
    intro st
    simp only [List.cons_append, parseLines]
    cases hx : parseLine fn fs st x with
    | error e => simp [error_bind]
    | ok st' => simp [ok_bind, ih]

/-- C7: shape classification in both directions.  Parsing: `p i` yields kind
point; `l` with exactly two indices yields kind line; `l` with more than two
yields kind wireframe; `f` yields kind polygon.  Serializing: a point
descriptor emits `p i`; a line descriptor emits `l a b`; a wireframe
descriptor emits an `l` line with all its indices; a polygon descriptor
emits an `f` line with all its indices. -/
theorem c7_shape_classification :
    (∀ n : Int, _parse_objs "f.obj" [[.s "p", .i n]] [] =
      .ok ([⟨some "point", [n], [("name", .s "f")]⟩], [none], [])) ∧
    (∀ a b : Int, _parse_objs "f.obj" [[.s "l", .i a, .i b]] [] =
      .ok ([⟨some "line", [a, b], [("name", .s "f")]⟩], [none], [])) ∧
    (∀ (a b c : Int) (rest : List Int),
      _parse_objs "f.obj" [.s "l" :: ([a, b, c] ++ rest).map .i] [] =
      .ok ([⟨some "wireframe", [a, b, c] ++ rest, [("name", .s "f")]⟩], [none], [])) ∧
    (∀ idx : List Int, _parse_objs "f.obj" [.s "f" :: idx.map .i] [] =
      .ok ([⟨some "polygon", idx, [("name", .s "f")]⟩], [none], [])) ∧
    (∀ (n : Int) (nm : String), dumpObj ⟨some "point", [n], [("name", .s nm)]⟩ =
      ([[.s "o", .s nm], [.s "p", .i n]], none)) ∧
    (∀ (a b : Int) (nm : String), dumpObj ⟨some "line", [a, b], [("name", .s nm)]⟩ =
      ([[.s "o", .s nm], [.s "l", .i a, .i b]], none)) ∧
    (∀ (idx : List Int) (nm : String),
      dumpObj ⟨some "wireframe", idx, [("name", .s nm)]⟩ =
      ([[.s "o", .s nm], .s "l" :: idx.map .i], none)) ∧
    (∀ (idx : List Int) (nm : String),
      dumpObj ⟨some "polygon", idx, [("name", .s nm)]⟩ =
      ([[.s "o", .s nm], .s "f" :: idx.map .i], none)) := by
  refine ⟨fun n => rfl, fun a b => rfl, ?_, ?_, fun n nm => rfl, fun a b nm => rfl, ?_, ?_⟩
  · intro a b c rest
    simp only [_parse_objs, parseLines, parseLine_l, ok_bind]
    have hlen : ([a, b, c] ++ rest).length > 2 := by simp
    rw [if_pos hlen]
    simp [show mkObjDescriptor (implicitName "f.obj") none [] [] =
      ⟨none, [], [("name", AttrVal.s "f")]⟩ from rfl]
  · intro idx
    simp only [_parse_objs, parseLines, parseLine_f, ok_bind]
    simp [show mkObjDescriptor (implicitName "f.obj") none [] [] =
      ⟨none, [], [("name", AttrVal.s "f")]⟩ from rfl]
  · intro idx nm
    simp [dumpObj, pyDictGet, attrTok, pyLower]
  · intro idx nm
    simp [dumpObj, pyDictGet, attrTok, pyLower]

/-- Folding well-formed `v`/geometry lines never touches the descriptor
list, the globals, the materials, or the accumulator's attributes. -/
theorem vg_invariant (fn : String) (fs : List (String × List Line)) :
    ∀ (lines : List Line) (st : ParseState),
    lines.all vgLine = true →
    ∃ (vs : List (Option Point)) (c : ObjDescriptor),
      parseLines fn fs lines st =
        .ok { st with vertices := vs, current_obj := c } ∧
      c.attributes = st.current_obj.attributes := by
  intro lines
  induction lines with
  | nil =>
    intro st _
    exact ⟨st.vertices, st.current_obj, rfl, rfl⟩
  | cons line rest ih =>
    intro st hall
    simp only [List.all_cons, Bool.and_eq_true] at hall
    obtain ⟨h1, hrest⟩ := hall
    rcases line with _ | ⟨head, body⟩
    · simp [vgLine] at h1
    · simp only [vgLine, Bool.or_eq_true, Bool.and_eq_true] at h1
      rcases h1 with ((⟨hv, hbody⟩ | ⟨hp, hbody⟩) | ⟨hl | hf, hbody⟩)
      · -- v line
        obtain rfl := tokEq_true hv
        rcases body with _ | ⟨x, _ | ⟨y, brest⟩⟩
        · simp at hbody
        · simp at hbody
        · simp only [Bool.and_eq_true] at hbody
          obtain ⟨xv, hx⟩ := exOk_true hbody.1
          obtain ⟨yv, hy⟩ := exOk_true hbody.2
          have hstep : parseLine fn fs st (.s "v" :: x :: y :: brest) =
              .ok { st with vertices := st.vertices ++ [some ⟨xv, yv⟩] } := by
            simp [parseLine, tokEq, hx, hy, ok_bind]
          obtain ⟨vs, c, hrun, hattr⟩ :=
            ih { st with vertices := st.vertices ++ [some ⟨xv, yv⟩] } hrest
          refine ⟨vs, c, ?_, hattr⟩
          simp only [parseLines, hstep, ok_bind]
          exact hrun
      · -- p line
        obtain rfl := tokEq_true hp
        rcases body with _ | ⟨t, brest⟩
        · simp at hbody
        · obtain ⟨n, hn⟩ := exOk_true hbody
          have hstep : parseLine fn fs st (.s "p" :: t :: brest) =
              .ok { st with current_obj := { st.current_obj with
                kind := some "point"
                vertex_indexes := st.current_obj.vertex_indexes ++ [n] } } := by
            simp [parseLine, tokEq, pyGet_cons_zero, hn, ok_bind]
          obtain ⟨vs, c, hrun, hattr⟩ :=
            ih { st with current_obj := { st.current_obj with
              kind := some "point"
              vertex_indexes := st.current_obj.vertex_indexes ++ [n] } } hrest
          refine ⟨vs, c, ?_, hattr⟩
          simp only [parseLines, hstep, ok_bind]
          exact hrun
      · -- l line
        obtain rfl := tokEq_true hl
        obtain ⟨ns, hns⟩ := mapM_pyToInt_of_all hbody
        have hns' : List.mapM.loop pyToInt body [] = .ok ns := hns
        have hstep : parseLine fn fs st (.s "l" :: body) =
            .ok { st with current_obj := { st.current_obj with
              kind := some (if body.length > 2 then "wireframe" else "line")
              vertex_indexes := st.current_obj.vertex_indexes ++ ns } } := by
          simp [parseLine, tokEq, hns, hns', ok_bind]
        obtain ⟨vs, c, hrun, hattr⟩ :=
          ih { st with current_obj := { st.current_obj with
            kind := some (if body.length > 2 then "wireframe" else "line")
            vertex_indexes := st.current_obj.vertex_indexes ++ ns } } hrest
        refine ⟨vs, c, ?_, hattr⟩
        simp only [parseLines, hstep, ok_bind]
        exact hrun
      · -- f line
        obtain rfl := tokEq_true hf
        obtain ⟨ns, hns⟩ := mapM_pyToInt_of_all hbody
        have hns' : List.mapM.loop pyToInt body [] = .ok ns := hns
        have hstep : parseLine fn fs st (.s "f" :: body) =
            .ok { st with current_obj := { st.current_obj with
              kind := some "polygon"
              vertex_indexes := st.current_obj.vertex_indexes ++ ns } } := by
          simp [parseLine, tokEq, hns, hns', ok_bind]
        obtain ⟨vs, c, hrun, hattr⟩ :=
          ih { st with current_obj := { st.current_obj with
            kind := some "polygon"
            vertex_indexes := st.current_obj.vertex_indexes ++ ns } } hrest
        refine ⟨vs, c, ?_, hattr⟩
        simp only [parseLines, hstep, ok_bind]
        exact hrun

/-! ## C9 — the implicit object -/

/-- C9: an input consisting only of (well-formed) `v` lines and geometry
lines, with no `o` directive, parses into exactly one descriptor, named
after the file's base name without extension. -/
theorem c9_implicit_object (fn : String) (fs : List (String × List Line))
    (lines : List Line) (h : lines.all vgLine = true) :
    ∃ (vs : List (Option Point)) (d : ObjDescriptor),
      _parse_objs fn lines fs = .ok ([d], vs, []) ∧
      pyDictGet d.attributes "name" = some (.s (implicitName fn)) := by
  obtain ⟨vs, c, hrun, hattr⟩ := vg_invariant fn fs lines
    { descriptors := []
      vertices := [none]
      globals_ := []
      materials := []
      current_obj := mkObjDescriptor (implicitName fn) none [] [] } h
  refine ⟨vs, c, ?_, ?_⟩
  · show (parseLines fn fs lines
      { descriptors := []
        vertices := [none]
        globals_ := []
        materials := []
        current_obj := mkObjDescriptor (implicitName fn) none [] [] } >>=
        fun st => .ok (st.descriptors ++ [st.current_obj], st.vertices, st.globals_)) = _
    rw [hrun, ok_bind]
    rfl
  · rw [hattr]
    simp [mkObjDescriptor, pyDictSet, pyDictGet]

/-- Witness for `c9_implicit_object` on a concrete minimal input. -/
theorem c9_witness :
    ∃ (vs : List (Option Point)) (d : ObjDescriptor),
      _parse_objs "dir/cube.obj" [[.s "v", .q 1, .q 2], [.s "v", .q 3, .q 4],
        [.s "l", .i 1, .i 2]] [] = .ok ([d], vs, []) ∧
      pyDictGet d.attributes "name" = some (.s (implicitName "dir/cube.obj")) :=
  c9_implicit_object "dir/cube.obj" []
    [[.s "v", .q 1, .q 2], [.s "v", .q 3, .q 4], [.s "l", .i 1, .i 2]] (by decide)

theorem map_some_copy (ps : List Point) :
    ps.map (fun p => some (⟨p.x, p.y⟩ : Point)) = ps.map some := rfl

theorem allPts_cons (w : Drawable × String) (rest : List (Drawable × String)) :
    allPts (w :: rest) = ptsOf w.1 ++ allPts rest := by
  simp [allPts]

theorem idxsFrom_length : ∀ (n s : Nat), (idxsFrom s n).length = n := by
  intro n
  induction n with
  | zero => intro s; rfl
  | succ n ih => intro s; simp [idxsFrom, ih]

theorem writeAll_spec (ws : List (Drawable × String)) :
    ∀ (ds : List ObjDescriptor) (ps : List Point) (gs : List (String × AttrVal)),
    writeAll ⟨"w", ds, none :: ps.map some, gs⟩ ws =
      .ok ⟨"w", ds ++ descsOf ps.length ws, none :: (ps ++ allPts ws).map some, gs⟩ := by
  induction ws with
  | nil =>
    intro ds ps gs
    simp [writeAll, allPts, descsOf]
  | cons w rest ih =>
    intro ds ps gs
    have hw : ObjFile.write ⟨"w", ds, none :: ps.map some, gs⟩ w.1 w.2 [] =
        .ok ⟨"w", ds ++ [descOf ps.length w], none :: (ps ++ ptsOf w.1).map some, gs⟩ := by
      simp only [ObjFile.write, drawable_to_obj_spec, true_or, if_true]
      simp [descOf, pyDictSet, map_some_copy, List.map_append]
    show (ObjFile.write ⟨"w", ds, none :: ps.map some, gs⟩ w.1 w.2 [] >>= fun f' =>
        writeAll f' rest) = _
    rw [hw, ok_bind, ih]
    simp [descsOf, allPts_cons, List.append_assoc, List.length_append]

theorem dumpVerts_map (ps : List Point) :
    dumpVerts (ps.map some) = (vSection ps, none) := by
  induction ps with
  | nil => rfl
  | cons p rest ih => simp [dumpVerts, vSection, ih, vLineOf]

theorem dumpObj_descOf (off : Nat) (w : Drawable × String) :
    dumpObj (descOf off w) = ([[.s "o", .s w.2], geomLineOf off w], none) := by
  obtain ⟨d, nm⟩ := w
  cases d <;>
    simp [dumpObj, descOf, geomLineOf, kindOf, ptsOf, pyDictGet, attrTok,
      pyLower, idxsFrom, pyGet_cons_zero]

theorem dumpObjs_descsOf : ∀ (ws : List (Drawable × String)) (off : Nat),
    dumpObjs (descsOf off ws) = (objSections off ws, none) := by
  intro ws
  induction ws with
  | nil => intro off; rfl
  | cons w rest ih =>
    intro off
    simp [dumpObjs, descsOf, objSections, dumpObj_descOf, ih]

theorem dump_write_state (ws : List (Drawable × String)) :
    _dump_objs (descsOf 0 ws) (none :: (allPts ws).map some) [] =
      (vSection (allPts ws) ++ objSections 0 ws, none) := by
  simp only [_dump_objs, List.drop_succ_cons, List.drop_zero, dumpVerts_map,
    dumpObjs_descsOf, dumpGlobals]
  simp

theorem parse_vSection (fn : String) (fs : List (String × List Line))
    (ps : List Point) : ∀ st : ParseState,
    parseLines fn fs (vSection ps) st =
      .ok { st with vertices := st.vertices ++ ps.map some } := by
  induction ps with
  | nil => intro st; simp [vSection, parseLines]
  | cons p rest ih =>
    intro st
    simp only [vSection, List.map_cons, parseLines, vLineOf, parseLine_v, ok_bind]
    rw [show vSection rest = rest.map vLineOf from rfl] at ih
    rw [ih]
    simp [List.append_assoc]

theorem lastDesc_irrel (d d' : ObjDescriptor) :
    ∀ (l : List ObjDescriptor) (x : ObjDescriptor),
    lastDesc d (x :: l) = lastDesc d' (x :: l) := by
  intro l
  induction l with
  | nil => intro x; rfl
  | cons y rest ih => intro x; simp [lastDesc, ih]

theorem dropLast_append_lastDesc (d : ObjDescriptor) :
    ∀ (l : List ObjDescriptor), l ≠ [] →
    l.dropLast ++ [lastDesc d l] = l := by
  intro l
  induction l with
  | nil => intro h; exact absurd rfl h
  | cons x rest ih =>
    intro _
    cases rest with
    | nil => rfl
    | cons y t =>
      simp only [List.dropLast_cons₂, lastDesc, List.cons_append]
      rw [ih (by simp)]

theorem parse_geomLine (fn : String) (fs : List (String × List Line))
    (w : Drawable × String) (off : Nat) (st : ParseState)
    (hcur : st.current_obj = mkObjDescriptor w.2 none [] [])
    (hwf : c1Wf w = true) :
    parseLine fn fs st (geomLineOf off w) =
      .ok { st with current_obj := descOf off w } := by
  obtain ⟨d, nm⟩ := w
  cases d with
  | point p =>
    rw [show geomLineOf off (Drawable.point p, nm) =
      .s "p" :: .i ((off + 1 : Nat) : Int) :: [] from rfl, parseLine_p, hcur]
    simp [mkObjDescriptor, descOf, kindOf, ptsOf, idxsFrom, pyDictSet]
  | line a b =>
    rw [show geomLineOf off (Drawable.line a b, nm) =
      .s "l" :: (idxsFrom (off + 1) 2).map .i from rfl, parseLine_l, hcur]
    simp [mkObjDescriptor, descOf, kindOf, ptsOf, idxsFrom_length, pyDictSet]
  | wireframe ps =>
    have hlen : 2 < ps.length := by
      simp only [c1Wf, Bool.and_eq_true, decide_eq_true_eq] at hwf
      exact hwf.1
    rw [show geomLineOf off (Drawable.wireframe ps, nm) =
      .s "l" :: (idxsFrom (off + 1) ps.length).map .i from rfl, parseLine_l, hcur]
    simp [mkObjDescriptor, descOf, kindOf, ptsOf, idxsFrom_length, pyDictSet, hlen]
  | polygon ps =>
    rw [show geomLineOf off (Drawable.polygon ps, nm) =
      .s "f" :: (idxsFrom (off + 1) ps.length).map .i from rfl, parseLine_f, hcur]
    simp [mkObjDescriptor, descOf, kindOf, ptsOf, pyDictSet]

theorem parse_objSections (fn : String) (fs : List (String × List Line)) :
    ∀ (ws : List (Drawable × String)) (off : Nat) (st : ParseState),
    ws ≠ [] → (∀ w ∈ ws, c1Wf w = true) →
    parseLines fn fs (objSections off ws) st =
      .ok { st with
        descriptors := st.descriptors ++
          (if st.current_obj.kind ≠ none then [st.current_obj] else []) ++
          (descsOf off ws).dropLast
        current_obj := lastDesc st.current_obj (descsOf off ws) } := by
  intro ws
  induction ws with
  | nil => intro off st h; exact absurd rfl h
  | cons w rest ih =>
    intro off st _ hwf
    have hstep1 : parseLine fn fs st [.s "o", .s w.2] =
        .ok { st with
          descriptors :=
            if st.current_obj.kind ≠ none then st.descriptors ++ [st.current_obj]
            else st.descriptors
          current_obj := mkObjDescriptor w.2 none [] [] } := parseLine_o fn fs st (.s w.2) []
    have hstep2 := parse_geomLine fn fs w off
      { st with
        descriptors :=
          if st.current_obj.kind ≠ none then st.descriptors ++ [st.current_obj]
          else st.descriptors
        current_obj := mkObjDescriptor w.2 none [] [] }
      rfl (hwf w (by simp))
    simp only [objSections, parseLines, hstep1, ok_bind, hstep2]
    cases rest with
    | nil =>
      simp only [parseLines, objSections, descsOf, lastDesc, List.dropLast_single]
      by_cases hk : st.current_obj.kind = none <;> simp [hk]
    | cons w' rest' =>
      rw [ih (off + (ptsOf w.1).length) _ (by simp) (fun x hx => hwf x (by simp [hx]))]
      simp only [Except.ok.injEq, ParseState.mk.injEq, and_true, true_and]
      constructor
      · rw [show (descOf off w).kind = some (kindOf w.1) from rfl]
        by_cases hc : st.current_obj.kind = none <;>
          simp [hc, descsOf, List.dropLast_cons₂, List.append_assoc,
            show ∀ off2, descsOf off2 (w' :: rest') =
              descOf off2 w' :: descsOf (off2 + (ptsOf w'.1).length) rest'
              from fun off2 => rfl]
      · rw [show descsOf off (w :: w' :: rest') =
            descOf off w :: descOf (off + (ptsOf w.1).length) w' ::
              descsOf (off + (ptsOf w.1).length + (ptsOf w'.1).length) rest' from rfl]
        rw [show descsOf (off + (ptsOf w.1).length) (w' :: rest') =
            descOf (off + (ptsOf w.1).length) w' ::
              descsOf (off + (ptsOf w.1).length + (ptsOf w'.1).length) rest' from rfl]
        simp only [lastDesc]
        exact lastDesc_irrel _ _ _ _

theorem descsOf_ne_nil (w : Drawable × String) (rest : List (Drawable × String))
    (off : Nat) : descsOf off (w :: rest) ≠ [] := by
  simp [descsOf]

theorem parse_of_dump (fn : String) (fs : List (String × List Line))
    (ws : List (Drawable × String)) (hne : ws ≠ [])
    (hwf : ∀ w ∈ ws, c1Wf w = true) :
    _parse_objs fn (vSection (allPts ws) ++ objSections 0 ws) fs =
      .ok (descsOf 0 ws, none :: (allPts ws).map some, []) := by
  show (parseLines fn fs (vSection (allPts ws) ++ objSections 0 ws)
      { descriptors := []
        vertices := [none]
        globals_ := []
        materials := []
        current_obj := mkObjDescriptor (implicitName fn) none [] [] } >>=
      fun st => .ok (st.descriptors ++ [st.current_obj], st.vertices, st.globals_)) = _
  rw [parseLines_append, parse_vSection, ok_bind,
    parse_objSections fn fs ws 0 _ hne hwf, ok_bind]
  have hn : descsOf 0 ws ≠ [] := by
    cases ws with
    | nil => exact absurd rfl hne
    | cons w rest => exact descsOf_ne_nil w rest 0
  simp [show (mkObjDescriptor (implicitName fn) none [] []).kind = none from rfl,
    dropLast_append_lastDesc _ _ hn]

theorem get_append_len {α : Type} (m : α) (rest2 : List α) :
    ∀ (pre : List α) (h : pre.length < (pre ++ m :: rest2).length),
    (pre ++ m :: rest2).get ⟨pre.length, h⟩ = m := by
  intro pre
  induction pre with
  | nil => intro h; rfl
  | cons a t ih => intro h; exact ih _

theorem get_map_some (m : Point) (rest2 : List Point) :
    ∀ (pre : List Point) (h : pre.length < ((pre ++ m :: rest2).map some).length),
    ((pre ++ m :: rest2).map some).get ⟨pre.length, h⟩ = some m := by
  intro pre
  induction pre with
  | nil => intro h; rfl
  | cons a t ih => intro h; exact ih _

theorem pyGet_table (pre : List Point) (m : Point) (rest2 : List Point) :
    pyGet (none :: (pre ++ m :: rest2).map some) ((pre.length + 1 : Nat) : Int) =
      .ok (some m) := by
  have hlt : pre.length + 1 < (none :: (pre ++ m :: rest2).map some).length := by
    simp
  rw [pyGet_ofNat _ _ hlt]
  exact congrArg Except.ok (get_map_some m rest2 pre (by simp))

theorem translate_idxs : ∀ (mid pre post : List Point),
    (idxsFrom (pre.length + 1) mid.length).mapM
      (fun i => pyGet (none :: (pre ++ mid ++ post).map some) i >>= pointStar) =
      .ok mid := by
  intro mid
  induction mid with
  | nil => intro pre post; rfl
  | cons m mid' ih =>
    intro pre post
    rw [show idxsFrom (pre.length + 1) (m :: mid').length =
      ((pre.length + 1 : Nat) : Int) :: idxsFrom (pre.length + 1 + 1) mid'.length
      from rfl]
    rw [List.mapM_cons]
    rw [List.append_assoc pre (m :: mid') post]
    rw [show ((m :: mid') ++ post : List Point) = m :: (mid' ++ post) from rfl]
    rw [show (pre ++ m :: (mid' ++ post) : List Point) =
      pre ++ m :: (mid' ++ post) from rfl]
    have hfirst : pyGet (none :: (pre ++ m :: (mid' ++ post)).map some)
        ((pre.length + 1 : Nat) : Int) >>= pointStar = .ok m := by
      rw [pyGet_table pre m (mid' ++ post), ok_bind]
      rfl
    have hrest := ih (pre ++ [m]) post
    rw [show ((pre ++ [m]) ++ mid' ++ post : List Point) =
      pre ++ m :: (mid' ++ post) from by simp] at hrest
    rw [show (pre ++ [m]).length + 1 = pre.length + 1 + 1 from by simp] at hrest
    rw [hfirst, hrest]
    rfl

theorem pyGet_cons_one {α : Type} (a b : α) (l : List α) :
    pyGet (a :: b :: l) 1 = .ok b := by
  have := pyGet_ofNat (a :: b :: l) 1 (by simp)
  simpa using this

theorem obj_to_drawable_descOf (w : Drawable × String) :
    ∀ (pre post : List Point),
    _obj_to_drawable (none :: (pre ++ ptsOf w.1 ++ post).map some)
      (descOf pre.length w) =
      .ok (some w.1, [("name", AttrVal.s w.2)]) := by
  obtain ⟨d, nm⟩ := w
  cases d with
  | point p =>
    intro pre post
    show (pyGet (idxsFrom (pre.length + 1) 1) 0 >>= fun i0 =>
      pyGet (none :: (pre ++ ptsOf (Drawable.point p) ++ post).map some) i0 >>= fun v =>
      pointStar v >>= fun q =>
      Except.ok (some (Drawable.point q),
        (descOf pre.length (Drawable.point p, nm)).attributes)) =
      Except.ok (some (Drawable.point p), [("name", AttrVal.s nm)])
    rw [show idxsFrom (pre.length + 1) 1 = [((pre.length + 1 : Nat) : Int)] from rfl,
      pyGet_cons_zero, ok_bind]
    rw [show (pre ++ ptsOf (Drawable.point p) ++ post : List Point) =
      pre ++ p :: post from by simp [ptsOf]]
    rw [pyGet_table pre p post, ok_bind]
    rfl
  | line a b =>
    intro pre post
    show (pyGet (idxsFrom (pre.length + 1) 2) 0 >>= fun i0 =>
      pyGet (none :: (pre ++ ptsOf (Drawable.line a b) ++ post).map some) i0 >>= fun va =>
      pyGet (idxsFrom (pre.length + 1) 2) 1 >>= fun i1 =>
      pyGet (none :: (pre ++ ptsOf (Drawable.line a b) ++ post).map some) i1 >>= fun vb =>
      pointStar va >>= fun pa =>
      pointStar vb >>= fun pb =>
      Except.ok (some (Drawable.line pa pb),
        (descOf pre.length (Drawable.line a b, nm)).attributes)) =
      Except.ok (some (Drawable.line a b), [("name", AttrVal.s nm)])
    rw [show idxsFrom (pre.length + 1) 2 =
      [((pre.length + 1 : Nat) : Int), ((pre.length + 2 : Nat) : Int)] from rfl,
      pyGet_cons_zero, ok_bind]
    rw [show (pre ++ ptsOf (Drawable.line a b) ++ post : List Point) =
      pre ++ a :: (b :: post) from by simp [ptsOf]]
    rw [pyGet_table pre a (b :: post), ok_bind, pyGet_cons_one, ok_bind]
    have h2 : pyGet (none :: (pre ++ a :: (b :: post)).map some)
        ((pre.length + 2 : Nat) : Int) = .ok (some b) := by
      have := pyGet_table (pre ++ [a]) b post
      rw [show ((pre ++ [a]) ++ b :: post : List Point) = pre ++ a :: (b :: post)
        from by simp] at this
      rw [show (pre ++ [a]).length + 1 = pre.length + 2 from by simp] at this
      exact this
    rw [h2, ok_bind]
    rfl
  | wireframe ps =>
    intro pre post
    show ((idxsFrom (pre.length + 1) ps.length).mapM (fun i =>
        pyGet (none :: (pre ++ ptsOf (Drawable.wireframe ps) ++ post).map some) i >>=
          pointStar) >>= fun points =>
      Except.ok (some (Drawable.wireframe points),
        (descOf pre.length (Drawable.wireframe ps, nm)).attributes)) =
      Except.ok (some (Drawable.wireframe ps), [("name", AttrVal.s nm)])
    rw [show (ptsOf (Drawable.wireframe ps)) = ps from rfl, translate_idxs ps pre post,
      ok_bind]
    rfl
  | polygon ps =>
    intro pre post
    show ((idxsFrom (pre.length + 1) ps.length).mapM (fun i =>
        pyGet (none :: (pre ++ ptsOf (Drawable.polygon ps) ++ post).map some) i >>=
          pointStar) >>= fun points =>
      Except.ok (some (Drawable.polygon points),
        (descOf pre.length (Drawable.polygon ps, nm)).attributes)) =
      Except.ok (some (Drawable.polygon ps), [("name", AttrVal.s nm)])
    rw [show (ptsOf (Drawable.polygon ps)) = ps from rfl, translate_idxs ps pre post,
      ok_bind]
    rfl

theorem read_written : ∀ (ws : List (Drawable × String)) (pre : List Point),
    (∀ w ∈ ws, c1Wf w = true) →
    (descsOf pre.length ws).mapM
      (_obj_to_drawable (none :: (pre ++ allPts ws).map some)) =
      .ok (ws.map fun w => (some w.1, [("name", AttrVal.s w.2)])) := by
  intro ws
  induction ws with
  | nil => intro pre _; rfl
  | cons w rest ih =>
    intro pre hwf
    rw [show descsOf pre.length (w :: rest) =
      descOf pre.length w :: descsOf (pre.length + (ptsOf w.1).length) rest from rfl]
    rw [List.mapM_cons]
    have hhead := obj_to_drawable_descOf w pre (allPts rest)
    rw [show (pre ++ ptsOf w.1 ++ allPts rest : List Point) =
      pre ++ allPts (w :: rest) from by simp [allPts_cons]] at hhead
    rw [hhead, ok_bind]
    have htail := ih (pre ++ ptsOf w.1) (fun x hx => hwf x (by simp [hx]))
    rw [show ((pre ++ ptsOf w.1) ++ allPts rest : List Point) =
      pre ++ allPts (w :: rest) from by simp [allPts_cons]] at htail
    rw [show (pre ++ ptsOf w.1).length = pre.length + (ptsOf w.1).length
      from by simp] at htail
    rw [htail]
    rfl

/-! ## C1 — the round trip -/

/-- C1 (corrected): the full write/close/reopen/read round trip, for any
nonempty sequence of drawables written with single-word names, *no extra
attributes*, and wireframes of more than two points: the write session
accumulates exactly the expected descriptors and vertex table, closing
serializes them, reopening parses the same descriptors and table back, and
reading yields drawables structurally equal to the originals, in order, with
the name attribute preserved and no color attribute.  The claim's "with
attributes preserved" fails: any extra attribute is emitted as an
unrecognized directive and silently dropped on re-parse (see the
counterexample), and a wireframe of fewer than three points re-parses as a
line, so the amended statement excludes both. -/
theorem c1_round_trip (ws : List (Drawable × String)) (hne : ws ≠ [])
    (hwf : ∀ w ∈ ws, c1Wf w = true) :
    writeAll ⟨"w", [], [none], []⟩ ws =
      .ok ⟨"w", descsOf 0 ws, none :: (allPts ws).map some, []⟩ ∧
    ObjFile.close ⟨"w", descsOf 0 ws, none :: (allPts ws).map some, []⟩ =
      (vSection (allPts ws) ++ objSections 0 ws, none) ∧
    _parse_objs "out.obj" (vSection (allPts ws) ++ objSections 0 ws) [] =
      .ok (descsOf 0 ws, none :: (allPts ws).map some, []) ∧
    ObjFile.read ⟨"r", descsOf 0 ws, none :: (allPts ws).map some, []⟩ =
      .ok (ws.map fun w => (some w.1, [("name", AttrVal.s w.2)])) := by
  refine ⟨?_, ?_, ?_, ?_⟩
  · have := writeAll_spec ws [] [] []
    simpa using this
  · have hlen : 0 < (descsOf 0 ws).length := by
      cases ws with
      | nil => exact absurd rfl hne
      | cons w rest => simp [descsOf]
    rw [ObjFile.close, if_pos ⟨Or.inl rfl, hlen⟩]
    exact dump_write_state ws
  · exact parse_of_dump "out.obj" [] ws hne hwf
  · rw [ObjFile.read, if_pos (Or.inl rfl)]
    have := read_written ws [] hwf
    simpa using this


/-- Witness for `c1_round_trip` on a concrete four-drawable sequence (one of
each kind). -/
theorem c1_witness :
    writeAll ⟨"w", [], [none], []⟩ rtWs =
      .ok ⟨"w", descsOf 0 rtWs, none :: (allPts rtWs).map some, []⟩ ∧
    ObjFile.close ⟨"w", descsOf 0 rtWs, none :: (allPts rtWs).map some, []⟩ =
      (vSection (allPts rtWs) ++ objSections 0 rtWs, none) ∧
    _parse_objs "out.obj" (vSection (allPts rtWs) ++ objSections 0 rtWs) [] =
      .ok (descsOf 0 rtWs, none :: (allPts rtWs).map some, []) ∧
    ObjFile.read ⟨"r", descsOf 0 rtWs, none :: (allPts rtWs).map some, []⟩ =
      .ok (rtWs.map fun w => (some w.1, [("name", AttrVal.s w.2)])) :=
  c1_round_trip rtWs (by decide) (by decide)

/-- C1 counterexample: a point written with one extra attribute
`{"w": "2"}`.  The serializer emits the attribute line `w 2`, but the
re-parser silently ignores it (unrecognized directive), so `read` returns
the descriptor with only its name — the round trip does *not* preserve
attributes as the claim states. -/
theorem c1_counterexample :
    ObjFile.write ⟨"w", [], [none], []⟩ (.point ⟨0, 0⟩) "A" [("w", .s "2")] =
      .ok ⟨"w", [⟨some "point", [1], [("w", .s "2"), ("name", .s "A")]⟩],
           [none, some ⟨0, 0⟩], []⟩ ∧
    ObjFile.close ⟨"w", [⟨some "point", [1], [("w", .s "2"), ("name", .s "A")]⟩],
        [none, some ⟨0, 0⟩], []⟩ =
      ([[.s "v", .q 0, .q 0, .q 1, .q 1], [.s "o", .s "A"], [.s "w", .s "2"],
        [.s "p", .i 1]], none) ∧
    _parse_objs "out.obj"
      [[.s "v", .q 0, .q 0, .q 1, .q 1], [.s "o", .s "A"], [.s "w", .s "2"],
       [.s "p", .i 1]] [] =
      .ok ([⟨some "point", [1], [("name", .s "A")]⟩], [none, some ⟨0, 0⟩], []) ∧
    ObjFile.read ⟨"r", [⟨some "point", [1], [("name", .s "A")]⟩],
        [none, some ⟨0, 0⟩], []⟩ =
      .ok [(some (.point ⟨0, 0⟩), [("name", .s "A")])] ∧
    pyDictGet ([("name", AttrVal.s "A")]) "w" = none :=
  ⟨rfl, rfl, rfl, rfl, rfl⟩
